import Mathlib

/-!
Shallow embedding of the CarSpeedDetector tracking core.

The definitions below translate `src/car.py` (the `Car` class) and the
tracking/assignment/speed-estimation parts of `src/process_video.py`
(`find_closest_car`, `annotate_with_speed`, and the per-frame loop body of
`process_video`).  Python lists `[x1, y1, x2, y2]` become the `Box`
structure, Python floats carrying exact integer or decimal values become
`ℚ`, frame counts (Python `int`) become `Int`, and the mutable `Car`
object becomes a record updated functionally.  The Python `set` of tracked
cars, which relies on object identity, is modelled as a `List Car` where a
position stands for one object identity: in-place mutation of a member is
positional replacement, and `set.add` of an already-present object is a
no-op (replacement), while adding a fresh object appends.
-/

/-- A bounding box `[x1, y1, x2, y2]` in pixel coordinates, as used
throughout `car.py` and `process_video.py` (Python list of ints). -/
structure Box where
  x1 : Int
  y1 : Int
  x2 : Int
  y2 : Int
deriving DecidableEq

/-- The `Car` class of `src/car.py`: state of one tracked object.
`speed_timing_frames` and `timing_frame_column` are the two checkpoint
lists; `direction` is `0` = unknown, `1` = rightward, `-1` = leftward. -/
structure Car where
  speed_timing_frames : List Int
  timing_frame_column : List Int
  initial_box : Box
  last_update : Int
  current_box : Box
  current_center : ℚ × ℚ
  confidence : ℚ
  direction : Int
deriving DecidableEq

/-- `Car.BOX_EDGE_INDEX = 2`: the index of the right edge (`x2`) used for
checkpoint columns; in the record embedding this is the `x2` field. -/
def Car.box_edge (b : Box) : Int := b.x2

/-- `Car.__init__(box, confidence, frame_count)` from `src/car.py`
lines 14-22: empty checkpoint lists, direction unknown (0), center is the
midpoint of the box. -/
def Car.init (box : Box) (confidence : ℚ) (frame_count : Int) : Car :=
  { speed_timing_frames := []
    timing_frame_column := []
    initial_box := box
    last_update := frame_count
    current_box := box
    current_center := (((box.x1 + box.x2 : Int) : ℚ) / 2, ((box.y1 + box.y2 : Int) : ℚ) / 2)
    confidence := confidence
    direction := 0 }

/-- `Car.box_similarity(other_box)` from `src/car.py` lines 24-50.
Lower is better, 0 is a perfect match.  All inputs are integer pixel
coordinates, so the Python float arithmetic (`math.fabs`) is exact and the
result is the integer
`(|other.x1 - current.x1| + |self_width - other_width|) * direction_check`,
with `direction_check = 2` under the `if`/`elif` of the source and `1`
otherwise. -/
def Car.box_similarity (c : Car) (other_box : Box) : Int :=
  let self_width := c.current_box.x2 - c.current_box.x1
  let other_width := other_box.x2 - other_box.x1
  let direction_check : Int :=
    if c.direction = 1 ∧ other_box.x1 < c.current_box.x1 then 2
    else if c.direction = -1 ∧ c.current_box.x1 < other_box.x1 then 2
    else 1
  (|other_box.x1 - c.current_box.x1| + |self_width - other_width|) * direction_check

/-- `Car.update_box(new_box, confidence, frame_count)` from `src/car.py`
lines 52-63: overwrite position, confidence and last-update frame, and
recompute `direction` from scratch by comparing the new box's `x1` with
the *initial* box's `x1` (`1` if strictly greater, else `-1`). -/
def Car.update_box (c : Car) (new_box : Box) (confidence : ℚ) (frame_count : Int) : Car :=
  { c with
    current_box := new_box
    last_update := frame_count
    confidence := confidence
    direction := if new_box.x1 > c.initial_box.x1 then 1 else -1
    current_center :=
      (((new_box.x1 + new_box.x2 : Int) : ℚ) / 2, ((new_box.y1 + new_box.y2 : Int) : ℚ) / 2) }

/-- `Car.start_tracking(frame_id)` from `src/car.py` lines 65-71: append
the first checkpoint (frame id and current right edge) only when no
checkpoint exists yet. -/
def Car.start_tracking (c : Car) (frame_id : Int) : Car :=
  if c.speed_timing_frames.length = 0 then
    { c with
      speed_timing_frames := c.speed_timing_frames ++ [frame_id]
      timing_frame_column := c.timing_frame_column ++ [c.current_box.x2] }
  else c

/-- `Car.end_tracking(frame_id)` from `src/car.py` lines 73-79: append the
second checkpoint only when exactly one checkpoint exists. -/
def Car.end_tracking (c : Car) (frame_id : Int) : Car :=
  if c.speed_timing_frames.length = 1 then
    { c with
      speed_timing_frames := c.speed_timing_frames ++ [frame_id]
      timing_frame_column := c.timing_frame_column ++ [c.current_box.x2] }
  else c

/-- `Car.get_end_column(default_value)` from `src/car.py` lines 81-88:
the second checkpoint column if it exists, else the default. -/
def Car.get_end_column (c : Car) (default_value : Int) : Int :=
  match c.timing_frame_column with
  | _ :: b :: _ => b
  | _ => default_value

/-- `Car.get_end_frame_count(default_value)` from `src/car.py`
lines 90-97: the second checkpoint frame if it exists, else the default. -/
def Car.get_end_frame_count (c : Car) (default_value : Int) : Int :=
  match c.speed_timing_frames with
  | _ :: b :: _ => b
  | _ => default_value

/-- `Car.get_tracked_distance_pixels()` from `src/car.py` lines 99-105:
`None` when no checkpoint exists, else the end column (defaulting to the
current right edge) minus the first checkpoint column. -/
def Car.get_tracked_distance_pixels (c : Car) : Option Int :=
  match c.timing_frame_column with
  | [] => none
  | col0 :: _ => some (c.get_end_column c.current_box.x2 - col0)

/-- `Car.is_expired(frame_count, expiration_count)` from `src/car.py`
lines 107-113: true exactly when `last_update + expiration_count <
frame_count`. -/
def Car.is_expired (c : Car) (frame_count expiration_count : Int) : Bool :=
  if c.last_update + expiration_count < frame_count then true else false

/-- One mutating operation on a `Car`, for stating invariants over
arbitrary operation sequences (the methods called by `process_video`
after construction). -/
inductive CarOp where
  | update (box : Box) (confidence : ℚ) (frame : Int)
  | startTrack (frame : Int)
  | endTrack (frame : Int)
deriving DecidableEq

/-- Apply one operation to a car. -/
def Car.applyOp (c : Car) : CarOp → Car
  | .update b conf f => c.update_box b conf f
  | .startTrack f => c.start_tracking f
  | .endTrack f => c.end_tracking f

/-- Apply a sequence of operations, left to right. -/
def Car.applyOps (c : Car) (ops : List CarOp) : Car :=
  ops.foldl Car.applyOp c

/-- The frame argument carried by an operation. -/
def CarOp.frame : CarOp → Int
  | .update _ _ f => f
  | .startTrack f => f
  | .endTrack f => f

/-- Whether an operation is a position update (as opposed to a
checkpoint-recording call). -/
def CarOp.isUpdate : CarOp → Bool
  | .update _ _ _ => true
  | _ => false

/-- The process-wide calibration configuration of `process_video.py`
lines 43-51, loaded from the environment: the two calibration columns,
the real-world distance between them, the similarity cutoff for new cars,
and the persistence window for expiry. -/
structure Config where
  pixel_left : Int
  pixel_right : Int
  actual_distance : ℚ
  new_car_threshold : ℚ
  tracker_persistence_count : Int

/-- One detection handed to the tracking core by the per-frame loop:
a box and its confidence (the class filter has already been applied). -/
structure Detection where
  box : Box
  conf : ℚ
deriving DecidableEq

/-- The running minimum step used by Python `min(cars, key=...)`:
replace the current best only on a strictly smaller score, so the
earliest minimum of the iteration order is kept. -/
def best_fit_step (box : Box) (best x : Car) : Car :=
  if x.box_similarity box < best.box_similarity box then x else best

/-- Python `min(cars, key=lambda car: car.box_similarity(box))` over the
nonempty list `c :: cs`: the first car attaining the minimum score. -/
def best_fit (box : Box) (c : Car) (cs : List Car) : Car :=
  cs.foldl (best_fit_step box) c

/-- The minimum similarity score of a list of cars against a box
(`none` for the empty list). -/
def minScore (box : Box) : List Car → Option Int
  | [] => none
  | c :: cs => some (cs.foldl (fun m x => min m (x.box_similarity box)) (c.box_similarity box))

/-- `find_closest_car(cars, box)` from `src/process_video.py` lines 53-74:
`None` on an empty collection; otherwise the minimum-score car if its
score is strictly below `new_car_threshold`, else `None`.  The score is an
integer and the threshold a float, so the comparison is made in `ℚ`.
Note: despite its docstring, the source function does NOT remove the
returned car from the collection. -/
def find_closest_car (threshold : ℚ) (cars : List Car) (box : Box) : Option Car :=
  match cars with
  | [] => none
  | c :: cs =>
    let m := best_fit box c cs
    if (m.box_similarity box : ℚ) < threshold then some m else none

/-- The update applied by the loop body of `process_video` (lines
159-164) to the chosen car (matched or newly created): `update_box`, then
`start_tracking` when `pixel_left < x2`, then `end_tracking` when
`pixel_right < x2`, all at the current frame. -/
def trackUpdate (cfg : Config) (d : Detection) (frame : Int) (c : Car) : Car :=
  let c1 := c.update_box d.box d.conf frame
  let c2 := if cfg.pixel_left < d.box.x2 then c1.start_tracking frame else c1
  if cfg.pixel_right < d.box.x2 then c2.end_tracking frame else c2

/-- Replace the first list element satisfying `p` by its image under
`f`; models in-place mutation of the identified set member. -/
def updateFirstWhere (p : Car → Bool) (f : Car → Car) : List Car → List Car
  | [] => []
  | c :: cs => if p c then f c :: cs else c :: updateFirstWhere p f cs

/-- The per-detection body of the loop in `process_video` lines 149-164:
look up the closest car; when none qualifies, construct a new `Car` and
add it to the collection; in both cases apply `trackUpdate`.  The matched
car (the first car attaining the minimum score) is mutated in place —
`tracked_cars.add(closest_car)` is a no-op for an existing member — while
a new car is appended. -/
def processDetection (cfg : Config) (frame : Int) (cars : List Car) (d : Detection) : List Car :=
  match find_closest_car cfg.new_car_threshold cars d.box with
  | none => cars ++ [trackUpdate cfg d frame (Car.init d.box d.conf frame)]
  | some m =>
    updateFirstWhere (fun c => c.box_similarity d.box == m.box_similarity d.box)
      (trackUpdate cfg d frame) cars

/-- All detections of one frame, processed in detector output order
(`process_video` lines 149-176). -/
def processFrameDetections (cfg : Config) (frame : Int) (cars : List Car) (ds : List Detection) :
    List Car :=
  ds.foldl (processDetection cfg frame) cars

/-- The expiration sweep of `process_video` lines 180-185: remove every
car for which `is_expired(frame, tracker_persistence_count)` holds. -/
def expirationSweep (cfg : Config) (frame : Int) (cars : List Car) : List Car :=
  cars.filter (fun c => !(c.is_expired frame cfg.tracker_persistence_count))

/-- One whole frame of the tracking core: assignment/update of every
detection, then the expiration sweep. -/
def processFrame (cfg : Config) (frame : Int) (cars : List Car) (ds : List Detection) : List Car :=
  expirationSweep cfg frame (processFrameDetections cfg frame cars ds)

/-- The speed computation of `annotate_with_speed(frame, car,
frame_count, framerate)` from `src/process_video.py` lines 76-94, with the
drawing side effect stripped: the value is the miles-per-hour number
rendered into the label, or `none` on each early-return path (no
checkpoint yet, no tracked distance, zero elapsed frames, zero frame
rate).  `2.23694` is the meters-per-second to miles-per-hour factor from
line 93. -/
def annotate_with_speed (cfg : Config) (car : Car) (frame_count : Int) (framerate : ℚ) :
    Option ℚ :=
  if car.speed_timing_frames.length = 0 then none
  else
    let end_frame := car.get_end_frame_count frame_count
    match car.get_tracked_distance_pixels with
    | none => none
    | some td =>
      let meters : ℚ := cfg.actual_distance * (td : ℚ) / ((cfg.pixel_right - cfg.pixel_left : Int) : ℚ)
      if end_frame - car.speed_timing_frames.headI = 0 ∨ framerate = 0 then none
      else
        let seconds : ℚ := ((end_frame - car.speed_timing_frames.headI : Int) : ℚ) / framerate
        let meters_per_second := meters / seconds
        some (meters_per_second * (223694 / 100000 : ℚ))

/-- Shape invariant for the checkpoint frame list: it is empty, or a
singleton bounded by the latest frame seen so far, or a pair in
non-decreasing order. -/
def stfShape (c : Car) (lo : Int) : Prop :=
  c.speed_timing_frames = [] ∨
  (∃ a, c.speed_timing_frames = [a] ∧ a ≤ lo) ∨
  (∃ a b, c.speed_timing_frames = [a, b] ∧ a ≤ b)

/-- A concrete configuration for witnesses: calibration columns 100 and
200, 10 meters between them, threshold 50, persistence 5. -/
def testConfig : Config :=
  { pixel_left := 100, pixel_right := 200, actual_distance := 10,
    new_car_threshold := 50, tracker_persistence_count := 5 }

/-- A concrete track that has recorded both checkpoints: start at frame 3
column 120, end at frame 7 column 220. -/
def twoCheckpointCar : Car :=
  { speed_timing_frames := [3, 7]
    timing_frame_column := [120, 220]
    initial_box := ⟨0, 0, 10, 10⟩
    last_update := 7
    current_box := ⟨110, 0, 130, 10⟩
    current_center := (120, 5)
    confidence := 1
    direction := 1 }

/-- C1: evaluation of the per-frame assignment at the failing input.  One
track exists (created from a detection at frame 1 with box `[0,0,10,10]`,
threshold 50).  At frame 2 two detections arrive, `[2,0,12,10]` and then
`[4,0,14,10]`; both score far below the threshold against the single
track.  Because `find_closest_car` never removes the matched car from the
collection (contrary to its own docstring and to the claim), the second
detection claims the very same track: after the frame there is still
exactly one track, and its current box is the second detection's box —
no second track was ever created. -/
theorem C1_same_track_claimed_twice :
    ((processFrameDetections
        { pixel_left := 100, pixel_right := 200, actual_distance := 10,
          new_car_threshold := 50, tracker_persistence_count := 5 }
        2
        (processDetection
          { pixel_left := 100, pixel_right := 200, actual_distance := 10,
            new_car_threshold := 50, tracker_persistence_count := 5 }
          1 [] ⟨⟨0, 0, 10, 10⟩, 1⟩)
        [⟨⟨2, 0, 12, 10⟩, 1⟩, ⟨⟨4, 0, 14, 10⟩, 1⟩]).map Car.current_box)
      = [⟨4, 0, 14, 10⟩] := by decide

/-- C2, counterexample: a track created with `x1 = 10`, updated to a box
with `x1 = 20` (direction becomes rightward, `1`), then updated to a box
with `x1 = 0` — the direction flips to leftward (`-1`), because
`update_box` recomputes it from scratch against the initial box on every
call.  This refutes "once set to rightward, no later update ever changes
it to leftward". -/
theorem C2_direction_flips :
    (((Car.init ⟨10, 0, 20, 10⟩ 1 1).update_box ⟨20, 0, 30, 10⟩ 1 2).direction = 1) ∧
    ((((Car.init ⟨10, 0, 20, 10⟩ 1 1).update_box ⟨20, 0, 30, 10⟩ 1 2).update_box
        ⟨0, 0, 10, 10⟩ 1 3).direction = -1) := by decide

/-- C2, amended: after any `update_box` call the direction is never
unknown (never `0`), and it equals rightward (`1`) exactly when the new
box's `x1` is strictly greater than the *initial* box's `x1` (else
leftward, `-1`) — so it can flip sign whenever the box crosses back over
the initial `x1`, but it can never revert to unknown. -/
theorem C2_direction_never_unknown_after_update (c : Car) (b : Box) (conf : ℚ) (f : Int) :
    (c.update_box b conf f).direction ≠ 0 ∧
    ((c.update_box b conf f).direction = 1 ↔ b.x1 > c.initial_box.x1) ∧
    ((c.update_box b conf f).direction = -1 ↔ ¬ b.x1 > c.initial_box.x1) := by
  simp only [Car.update_box]
  by_cases h : b.x1 > c.initial_box.x1 <;> simp [h]

/-- C4: the similarity score is exactly
`(|candidate.x1 - current.x1| + |track_width - candidate_width|)`
multiplied by `2` precisely when the candidate is direction-inconsistent
(rightward track with a candidate `x1` strictly left of the current `x1`,
or leftward track with a candidate `x1` strictly right of it) and by `1`
otherwise; the result is always non-negative. -/
theorem C4_box_similarity_formula (c : Car) (b : Box) :
    c.box_similarity b =
      (|b.x1 - c.current_box.x1| +
        |(c.current_box.x2 - c.current_box.x1) - (b.x2 - b.x1)|) *
        (if (c.direction = 1 ∧ b.x1 < c.current_box.x1) ∨
            (c.direction = -1 ∧ c.current_box.x1 < b.x1) then 2 else 1) ∧
    0 ≤ c.box_similarity b := by
  constructor
  · simp only [Car.box_similarity]
    by_cases h1 : c.direction = 1 ∧ b.x1 < c.current_box.x1
    · simp [h1]
    · by_cases h2 : c.direction = -1 ∧ c.current_box.x1 < b.x1
      · simp [h1, h2]
      · simp [h1, h2]
  · simp only [Car.box_similarity]
    have hab : (0 : Int) ≤ |b.x1 - c.current_box.x1| +
        |(c.current_box.x2 - c.current_box.x1) - (b.x2 - b.x1)| :=
      add_nonneg (abs_nonneg _) (abs_nonneg _)
    split_ifs <;> positivity

/-- C6: a track whose `last_update` is `F` is still live when the
expiration check runs at frame `F + P` for persistence window `P`, and is
expired at frame `F + P + 1` (the comparison in `is_expired` is strict). -/
theorem C6_expiration_boundary (c : Car) (P : Int) :
    c.is_expired (c.last_update + P) P = false ∧
    c.is_expired (c.last_update + P + 1) P = true := by
  simp only [Car.is_expired]
  constructor
  · simp
  · have h : c.last_update + P < c.last_update + P + 1 := by omega
    simp [h]

/-- C10: after any `update_box` call the direction is never unknown; when
the new box's `x1` equals the initial box's `x1` the direction is set to
leftward (`-1`), and in particular the update applied immediately after
creation with the very same box (as `process_video` does for a new car)
yields leftward. -/
theorem C10_equal_x1_gives_leftward (c : Car) (b : Box) (conf : ℚ) (f : Int) :
    (c.update_box b conf f).direction ≠ 0 ∧
    (b.x1 = c.initial_box.x1 → (c.update_box b conf f).direction = -1) ∧
    (∀ (conf0 : ℚ) (f0 : Int), ((Car.init b conf0 f0).update_box b conf f).direction = -1) := by
  refine ⟨?_, ?_, ?_⟩
  · simp only [Car.update_box]
    split_ifs <;> simp
  · intro h
    simp only [Car.update_box, h]
    simp
  · intro conf0 f0
    simp only [Car.init, Car.update_box]
    simp

/-- C10, witness: a concrete track whose initial `x1` is 5, updated with
a box whose `x1` is also 5 — the direction comes out leftward. -/
theorem C10_equal_x1_gives_leftward_witness :
    ((Car.init ⟨5, 0, 9, 2⟩ 1 1).update_box ⟨5, 1, 8, 3⟩ 1 2).direction = -1 :=
  (C10_equal_x1_gives_leftward (Car.init ⟨5, 0, 9, 2⟩ 1 1) ⟨5, 1, 8, 3⟩ 1 2).2.1 rfl

lemma stfShape_applyOp (c : Car) (op : CarOp) (lo : Int) (hlo : lo ≤ op.frame)
    (h : stfShape c lo) : stfShape (c.applyOp op) op.frame := by
  unfold stfShape at h ⊢
  cases op with
  | update b conf f =>
    rcases h with h | ⟨a, ha, hb⟩ | ⟨a, b2, hab, hle⟩
    · exact Or.inl h
    · exact Or.inr (Or.inl ⟨a, ha, le_trans hb hlo⟩)
    · exact Or.inr (Or.inr ⟨a, b2, hab, hle⟩)
  | startTrack f =>
    rcases h with h | ⟨a, ha, hb⟩ | ⟨a, b2, hab, hle⟩
    · refine Or.inr (Or.inl ⟨f, ?_, le_refl _⟩)
      simp [Car.applyOp, Car.start_tracking, h]
    · refine Or.inr (Or.inl ⟨a, ?_, le_trans hb hlo⟩)
      simp [Car.applyOp, Car.start_tracking, ha]
    · refine Or.inr (Or.inr ⟨a, b2, ?_, hle⟩)
      simp [Car.applyOp, Car.start_tracking, hab]
  | endTrack f =>
    rcases h with h | ⟨a, ha, hb⟩ | ⟨a, b2, hab, hle⟩
    · refine Or.inl ?_
      simp [Car.applyOp, Car.end_tracking, h]
    · refine Or.inr (Or.inr ⟨a, f, ?_, le_trans hb hlo⟩)
      simp [Car.applyOp, Car.end_tracking, ha]
    · refine Or.inr (Or.inr ⟨a, b2, ?_, hle⟩)
      simp [Car.applyOp, Car.end_tracking, hab]

lemma stfShape_applyOps :
    ∀ (ops : List CarOp) (c : Car) (lo : Int),
      List.Chain (· ≤ ·) lo (ops.map CarOp.frame) → stfShape c lo →
      ∃ hi, stfShape (c.applyOps ops) hi := by
  intro ops
  induction ops with
  | nil => exact fun c lo _ h => ⟨lo, h⟩
  | cons op rest ih =>
    intro c lo hchain h
    rw [List.map_cons, List.chain_cons] at hchain
    have hstep := stfShape_applyOp c op lo hchain.1 h
    have : Car.applyOps c (op :: rest) = Car.applyOps (c.applyOp op) rest := rfl
    rw [this]
    exact ih (c.applyOp op) op.frame hchain.2 hstep

lemma applyOp_append_both_or_neither (c : Car) (op : CarOp) :
    ((c.applyOp op).speed_timing_frames = c.speed_timing_frames ∧
      (c.applyOp op).timing_frame_column = c.timing_frame_column) ∨
    (∃ x y, (c.applyOp op).speed_timing_frames = c.speed_timing_frames ++ [x] ∧
      (c.applyOp op).timing_frame_column = c.timing_frame_column ++ [y]) := by
  cases op with
  | update b conf f => exact Or.inl ⟨rfl, rfl⟩
  | startTrack f =>
    simp only [Car.applyOp, Car.start_tracking]
    split_ifs with h
    · exact Or.inr ⟨f, c.current_box.x2, rfl, rfl⟩
    · exact Or.inl ⟨rfl, rfl⟩
  | endTrack f =>
    simp only [Car.applyOp, Car.end_tracking]
    split_ifs with h
    · exact Or.inr ⟨f, c.current_box.x2, rfl, rfl⟩
    · exact Or.inl ⟨rfl, rfl⟩

lemma applyOps_len_eq :
    ∀ (ops : List CarOp) (c : Car),
      c.speed_timing_frames.length = c.timing_frame_column.length →
      (c.applyOps ops).speed_timing_frames.length =
        (c.applyOps ops).timing_frame_column.length := by
  intro ops
  induction ops with
  | nil => exact fun c h => h
  | cons op rest ih =>
    intro c h
    have : Car.applyOps c (op :: rest) = Car.applyOps (c.applyOp op) rest := rfl
    rw [this]
    refine ih (c.applyOp op) ?_
    rcases applyOp_append_both_or_neither c op with ⟨h1, h2⟩ | ⟨x, y, h1, h2⟩
    · rw [h1, h2, h]
    · rw [h1, h2]
      simp [h]

/-- C3, counterexample: the claim demands strictly increasing checkpoint
frame indices, but a detection whose right edge already lies past both
calibration columns on the very frame its track is created (here
`pixel_left = 100 < pixel_right = 200 < x2 = 300` at frame 3) makes
`process_video` call `start_tracking(3)` and `end_tracking(3)` in the
same iteration, leaving checkpoints `[3, 3]` — and `3 < 3` is false. -/
theorem C3_equal_checkpoint_frames :
    ((processDetection
        { pixel_left := 100, pixel_right := 200, actual_distance := 10,
          new_car_threshold := 50, tracker_persistence_count := 5 }
        3 [] ⟨⟨250, 0, 300, 40⟩, 1⟩).map Car.speed_timing_frames = [[3, 3]]) ∧
    ¬ ((3 : Int) < 3) := by decide

/-- C3, amended: over every operation sequence whose frame arguments are
non-decreasing starting from the creation frame (as in `process_video`,
where the frame counter only grows), both checkpoint lists always have
length 0, 1 or 2, and when two checkpoints exist their frame indices are
non-decreasing — the second is greater than *or equal to* the first
(equality occurs when both crossings are recorded on the same frame). -/
theorem C3_checkpoint_lists_bounded (box : Box) (conf : ℚ) (f0 : Int) (ops : List CarOp)
    (hmono : List.Chain (· ≤ ·) f0 (ops.map CarOp.frame)) :
    ((Car.init box conf f0).applyOps ops).speed_timing_frames.length ≤ 2 ∧
    ((Car.init box conf f0).applyOps ops).timing_frame_column.length ≤ 2 ∧
    (∀ a b, ((Car.init box conf f0).applyOps ops).speed_timing_frames = [a, b] → a ≤ b) := by
  have hinit : stfShape (Car.init box conf f0) f0 := Or.inl rfl
  obtain ⟨hi, hshape⟩ := stfShape_applyOps ops (Car.init box conf f0) f0 hmono hinit
  have hlen : ((Car.init box conf f0).applyOps ops).speed_timing_frames.length ≤ 2 := by
    rcases hshape with h | ⟨a, ha, _⟩ | ⟨a, b, hab, _⟩
    · rw [h]; simp
    · rw [ha]; simp
    · rw [hab]; simp
  refine ⟨hlen, ?_, ?_⟩
  · have heq := applyOps_len_eq ops (Car.init box conf f0) rfl
    omega
  · intro a b habeq
    rcases hshape with h | ⟨x, hx, _⟩ | ⟨x, y, hxy, hle⟩
    · rw [h] at habeq; exact absurd habeq (by simp)
    · rw [hx] at habeq; exact absurd habeq (by simp)
    · rw [hxy] at habeq
      simp only [List.cons.injEq, and_true] at habeq
      omega

/-- C3, witness: a concrete track created at frame 1, updated at frame 2,
with the start crossing at frame 2 and the end crossing at frame 7. -/
theorem C3_checkpoint_lists_bounded_witness :
    ((Car.init ⟨0, 0, 10, 10⟩ 1 1).applyOps
      [CarOp.update ⟨120, 0, 150, 10⟩ 1 2, CarOp.startTrack 2,
        CarOp.endTrack 7]).speed_timing_frames.length ≤ 2 :=
  (C3_checkpoint_lists_bounded ⟨0, 0, 10, 10⟩ 1 1
    [CarOp.update ⟨120, 0, 150, 10⟩ 1 2, CarOp.startTrack 2, CarOp.endTrack 7]
    (by norm_num [List.chain_cons, CarOp.frame])).1

lemma best_fit_mem (box : Box) :
    ∀ (cs : List Car) (c : Car), best_fit box c cs ∈ c :: cs := by
  intro cs
  induction cs with
  | nil => intro c; simp [best_fit]
  | cons x rest ih =>
    intro c
    have hstep : best_fit box c (x :: rest) = best_fit box (best_fit_step box c x) rest := rfl
    rw [hstep]
    rcases List.mem_cons.mp (ih (best_fit_step box c x)) with h1 | h1
    · rw [h1]
      by_cases hx : x.box_similarity box < c.box_similarity box
      · simp [best_fit_step, hx]
      · simp [best_fit_step, hx]
    · exact List.mem_cons_of_mem _ (List.mem_cons_of_mem _ h1)

lemma best_fit_le (box : Box) :
    ∀ (cs : List Car) (c : Car), ∀ x ∈ c :: cs,
      (best_fit box c cs).box_similarity box ≤ x.box_similarity box := by
  intro cs
  induction cs with
  | nil =>
    intro c x hx
    simp only [List.mem_singleton] at hx
    subst hx
    simp [best_fit]
  | cons y rest ih =>
    intro c x hx
    have hbf : best_fit box c (y :: rest) = best_fit box (best_fit_step box c y) rest := rfl
    rw [hbf]
    have hstep_c : (best_fit_step box c y).box_similarity box ≤ c.box_similarity box := by
      simp only [best_fit_step]
      split_ifs with h
      · exact le_of_lt h
      · exact le_refl _
    have hstep_y : (best_fit_step box c y).box_similarity box ≤ y.box_similarity box := by
      simp only [best_fit_step]
      split_ifs with h
      · exact le_refl _
      · exact not_lt.mp h
    have hhead := ih (best_fit_step box c y) _ (List.mem_cons_self _ _)
    rcases List.mem_cons.mp hx with rfl | hx2
    · exact le_trans hhead hstep_c
    rcases List.mem_cons.mp hx2 with rfl | hx3
    · exact le_trans hhead hstep_y
    · exact ih (best_fit_step box c y) _ (List.mem_cons_of_mem _ hx3)

lemma best_fit_score (box : Box) :
    ∀ (cs : List Car) (c : Car),
      (best_fit box c cs).box_similarity box =
        cs.foldl (fun m x => min m (x.box_similarity box)) (c.box_similarity box) := by
  intro cs
  induction cs with
  | nil => intro c; rfl
  | cons y rest ih =>
    intro c
    have hbf : best_fit box c (y :: rest) = best_fit box (best_fit_step box c y) rest := rfl
    rw [hbf, ih]
    have hhead : (best_fit_step box c y).box_similarity box =
        min (c.box_similarity box) (y.box_similarity box) := by
      simp only [best_fit_step]
      split_ifs with h
      · exact (min_eq_right (le_of_lt h)).symm
      · exact (min_eq_left (not_lt.mp h)).symm
    rw [hhead]
    rfl

/-- C5: threshold gating of the assignment.  Whenever the tracked-car
list has a minimum similarity score `s` against the detection box:
if `s` is strictly below `new_car_threshold` then `find_closest_car`
returns a car attaining that minimum; if `s` is at or above the threshold
(in particular exactly equal) it returns `None` and the per-detection
step creates a new track (the list grows by one).  An empty tracked-car
list always leads to creation of a new track. -/
theorem C5_threshold_gating (cfg : Config) (box : Box) (cars : List Car) (s : Int)
    (hmin : minScore box cars = some s) :
    (((s : ℚ) < cfg.new_car_threshold →
        ∃ m, find_closest_car cfg.new_car_threshold cars box = some m ∧
          m ∈ cars ∧ m.box_similarity box = s ∧
          ∀ c ∈ cars, s ≤ c.box_similarity box) ∧
      (¬ (s : ℚ) < cfg.new_car_threshold →
        find_closest_car cfg.new_car_threshold cars box = none ∧
        ∀ (d : Detection) (frame : Int), d.box = box →
          (processDetection cfg frame cars d).length = cars.length + 1)) ∧
    ∀ (d : Detection) (frame : Int), (processDetection cfg frame [] d).length = 1 := by
  constructor
  · rcases cars with _ | ⟨c, cs⟩
    · exact absurd hmin (by simp [minScore])
    · have hs : (best_fit box c cs).box_similarity box = s := by
        rw [best_fit_score]
        simpa [minScore] using hmin
      constructor
      · intro hlt
        refine ⟨best_fit box c cs, ?_, best_fit_mem box cs c, hs, ?_⟩
        · simp only [find_closest_car, hs]
          rw [if_pos hlt]
        · intro x hx
          rw [← hs]
          exact best_fit_le box cs c x hx
      · intro hge
        have hnone : find_closest_car cfg.new_car_threshold (c :: cs) box = none := by
          simp only [find_closest_car, hs]
          rw [if_neg hge]
        refine ⟨hnone, ?_⟩
        intro d frame hd
        simp only [processDetection, hd, hnone]
        simp
  · intro d frame
    simp [processDetection, find_closest_car]

/-- C5, witness: a single live track with box `[0,0,10,10]` and a
detection box `[2,0,12,10]` scoring 2, below the threshold 50. -/
theorem C5_threshold_gating_witness :
    ∃ m, find_closest_car (50 : ℚ) [Car.init ⟨0, 0, 10, 10⟩ 1 1] ⟨2, 0, 12, 10⟩ = some m ∧
      m ∈ [Car.init ⟨0, 0, 10, 10⟩ 1 1] ∧ m.box_similarity ⟨2, 0, 12, 10⟩ = 2 ∧
      ∀ c ∈ [Car.init ⟨0, 0, 10, 10⟩ 1 1], 2 ≤ c.box_similarity ⟨2, 0, 12, 10⟩ :=
  (C5_threshold_gating
    { pixel_left := 100, pixel_right := 200, actual_distance := 10,
      new_car_threshold := 50, tracker_persistence_count := 5 }
    ⟨2, 0, 12, 10⟩ [Car.init ⟨0, 0, 10, 10⟩ 1 1] 2 (by decide)).1.1 (by norm_num)

lemma applyOps_updates_preserve :
    ∀ (ops : List CarOp) (c : Car), (∀ op ∈ ops, op.isUpdate = true) →
      (c.applyOps ops).speed_timing_frames = c.speed_timing_frames ∧
      (c.applyOps ops).timing_frame_column = c.timing_frame_column := by
  intro ops
  induction ops with
  | nil => exact fun c _ => ⟨rfl, rfl⟩
  | cons op rest ih =>
    intro c hops
    have hop : op.isUpdate = true := hops op (List.mem_cons_self _ _)
    have hrest : ∀ o ∈ rest, o.isUpdate = true := fun o ho => hops o (List.mem_cons_of_mem _ ho)
    have hstep : Car.applyOps c (op :: rest) = Car.applyOps (c.applyOp op) rest := rfl
    rw [hstep]
    cases op with
    | update b conf f => exact ih (c.applyOp (.update b conf f)) hrest
    | startTrack f => exact absurd hop (by simp [CarOp.isUpdate])
    | endTrack f => exact absurd hop (by simp [CarOp.isUpdate])

lemma annotate_with_speed_cons (cfg : Config) (c : Car) (fc : Int) (fr : ℚ)
    (s0 : Int) (srest : List Int) (t0 : Int) (trest : List Int)
    (hstf : c.speed_timing_frames = s0 :: srest)
    (htfc : c.timing_frame_column = t0 :: trest) :
    annotate_with_speed cfg c fc fr =
      if c.get_end_frame_count fc - s0 = 0 ∨ fr = 0 then none
      else
        some (cfg.actual_distance * ((c.get_end_column c.current_box.x2 - t0 : Int) : ℚ) /
          ((cfg.pixel_right - cfg.pixel_left : Int) : ℚ) /
          (((c.get_end_frame_count fc - s0 : Int) : ℚ) / fr) * (223694 / 100000 : ℚ)) := by
  simp [annotate_with_speed, Car.get_tracked_distance_pixels, hstf, htfc, List.headI,
    div_div_eq_mul_div, mul_div_assoc]

lemma get_end_frame_count_two (c : Car) (f1 f2 : Int)
    (h : c.speed_timing_frames = [f1, f2]) : ∀ d, c.get_end_frame_count d = f2 := by
  intro d
  simp [Car.get_end_frame_count, h]

lemma get_end_column_two (c : Car) (g1 g2 : Int)
    (h : c.timing_frame_column = [g1, g2]) : ∀ d, c.get_end_column d = g2 := by
  intro d
  simp [Car.get_end_column, h]

/-- C7: once both checkpoints are recorded, the speed estimate is frozen.
For any track whose checkpoint lists are exactly `[f1, f2]` and
`[g1, g2]`, the value computed by `annotate_with_speed` does not depend
on the current-frame-index argument, nor on any sequence of later
position updates (`update_box` calls): evaluating at any two frame
indices, before and after any updates, yields the identical value. -/
theorem C7_speed_freeze (cfg : Config) (c : Car) (f1 f2 g1 g2 : Int) (fr : ℚ)
    (fc fc2 : Int) (ops : List CarOp)
    (h1 : c.speed_timing_frames = [f1, f2])
    (h2 : c.timing_frame_column = [g1, g2])
    (hops : ∀ op ∈ ops, op.isUpdate = true) :
    annotate_with_speed cfg (c.applyOps ops) fc2 fr = annotate_with_speed cfg c fc fr := by
  obtain ⟨hs, ht⟩ := applyOps_updates_preserve ops c hops
  rw [annotate_with_speed_cons cfg (c.applyOps ops) fc2 fr f1 [f2] g1 [g2]
        (hs.trans h1) (ht.trans h2),
      annotate_with_speed_cons cfg c fc fr f1 [f2] g1 [g2] h1 h2,
      get_end_frame_count_two (c.applyOps ops) f1 f2 (hs.trans h1),
      get_end_frame_count_two c f1 f2 h1,
      get_end_column_two (c.applyOps ops) g1 g2 (ht.trans h2),
      get_end_column_two c g1 g2 h2]

/-- C7, witness: the concrete two-checkpoint track, queried at frame 10
and again at frame 20 after a further position update, gives the same
speed value. -/
theorem C7_speed_freeze_witness :
    annotate_with_speed testConfig
        (twoCheckpointCar.applyOps [CarOp.update ⟨150, 0, 170, 10⟩ 1 9]) 20 30 =
      annotate_with_speed testConfig twoCheckpointCar 10 30 :=
  C7_speed_freeze testConfig twoCheckpointCar 3 7 120 220 30 10 20
    [CarOp.update ⟨150, 0, 170, 10⟩ 1 9] rfl rfl (by simp [CarOp.isUpdate])

/-- C8: the speed estimator is total and guards every division.  For any
track whose two checkpoint lists have equal length (an invariant of all
reachable tracks, see the lockstep lemma), `annotate_with_speed` returns
`none` exactly when the track has no checkpoint, or the elapsed frame
count (end frame minus first checkpoint frame) is zero, or the frame rate
is zero; in every other case it returns a (finite, rational) value. -/
theorem C8_speed_estimator_total (cfg : Config) (c : Car) (fc : Int) (fr : ℚ)
    (hlen : c.speed_timing_frames.length = c.timing_frame_column.length) :
    annotate_with_speed cfg c fc fr = none ↔
      c.speed_timing_frames = [] ∨
        c.get_end_frame_count fc - c.speed_timing_frames.headI = 0 ∨ fr = 0 := by
  rcases hstf : c.speed_timing_frames with _ | ⟨s0, srest⟩
  · simp [annotate_with_speed, hstf]
  · rcases htfc : c.timing_frame_column with _ | ⟨t0, trest⟩
    · rw [hstf, htfc] at hlen
      simp at hlen
    · rw [annotate_with_speed_cons cfg c fc fr s0 srest t0 trest hstf htfc]
      simp only [hstf, List.headI]
      by_cases hg : c.get_end_frame_count fc - s0 = 0 ∨ fr = 0
      · simp [hg]
      · simp [hg]

/-- C8, witness: the concrete two-checkpoint track at frame rate 30 and
frame 10 — the estimator returns a value, and the `none` cases are
exactly the guarded ones. -/
theorem C8_speed_estimator_total_witness :
    annotate_with_speed testConfig twoCheckpointCar 10 30 = none ↔
      twoCheckpointCar.speed_timing_frames = [] ∨
        twoCheckpointCar.get_end_frame_count 10 -
          twoCheckpointCar.speed_timing_frames.headI = 0 ∨ (30 : ℚ) = 0 :=
  C8_speed_estimator_total testConfig twoCheckpointCar 10 30 rfl

/-- C9: the two checkpoint lists move in lockstep.  Every single
operation (`update_box`, `start_tracking`, `end_tracking`) either leaves
both lists unchanged or appends exactly one element to each; and starting
from a freshly constructed `Car` (both lists empty), any operation
sequence leaves the frame-index list and the edge-column list with equal
lengths. -/
theorem C9_checkpoint_lists_lockstep :
    (∀ (c : Car) (op : CarOp),
      ((c.applyOp op).speed_timing_frames = c.speed_timing_frames ∧
        (c.applyOp op).timing_frame_column = c.timing_frame_column) ∨
      (∃ x y, (c.applyOp op).speed_timing_frames = c.speed_timing_frames ++ [x] ∧
        (c.applyOp op).timing_frame_column = c.timing_frame_column ++ [y])) ∧
    (∀ (box : Box) (conf : ℚ) (f0 : Int) (ops : List CarOp),
      ((Car.init box conf f0).applyOps ops).speed_timing_frames.length =
        ((Car.init box conf f0).applyOps ops).timing_frame_column.length) :=
  ⟨applyOp_append_both_or_neither,
    fun box conf f0 ops => applyOps_len_eq ops (Car.init box conf f0) rfl⟩
